import Mathlib

/-!
Shallow embedding of the signaling relay in `src/api/websocket.go`
(package `api` of the signaler repository).

The Go file consumes three collaborators that are part of the wider
repository but not present under `src/`: the room directory package
(`gitlab.com/pions/pion/signaler/room`), the claim record produced by JWT
validation, and the message envelope structs together with the
serialized `WriteJSON` method of `pionSession`.  Those are modelled from
the spec (sections 3, 4.5 and 6) and are marked as such in their doc
comments.  Everything else is translated directly from the Go source.

Effects are made explicit: every `WriteJSON` call is recorded as a write
attempt `(session id, message)`, and an oracle `W : Nat → Msg → Bool`
decides whether a given attempted write succeeds (the transport may fail
at any time).  The connection handler is a function from its inputs and
a schedule of loop events to the trace of actions it performs.
-/

namespace Signaler

/-- Modelled from the spec: the claim record returned by the external
JWT validation (`jwt.PionClaim`): tenant identifier (`ApiKeyID`), room
identifier (`Room`) and participant key (`SessionKey`).  Field names
follow the Go source's uses (`claims.ApiKeyID`, `claims.Room`,
`claims.SessionKey`). -/
structure PionClaim where
  ApiKeyID : String
  SessionKey : String
  Room : String
  deriving DecidableEq, Repr

/-- Modelled from the spec: `pionSession` — one authenticated, upgraded
connection.  The transport handle and write lock are abstracted into a
session identifier `sid`; a write to the session's transport is recorded
as an attempt tagged with `sid`. -/
structure Session where
  sid : Nat
  claims : PionClaim
  deriving DecidableEq, Repr

/-- Modelled from the spec: the room directory state — the set of active
sessions.  Lookups are keyed by the session's own claim fields, exactly
as every call site in the Go source keys them
(`claims.ApiKeyID, claims.Room, claims.SessionKey`). -/
abbrev Dir := List Session

/-- Does session `t` live in scope `(apiKey, room)`? -/
def inScope (apiKey room : String) (t : Session) : Bool :=
  t.claims.ApiKeyID == apiKey && t.claims.Room == room

/-- Modelled from the spec: `pionRoom.GetRoom` — enumerate the live
sessions of one `(tenant, room)` scope.  An absent room and an empty
room coincide (both yield no sessions to iterate). -/
def GetRoom (d : Dir) (apiKey room : String) : List Session :=
  d.filter (inScope apiKey room)

/-- Modelled from the spec: `pionRoom.GetSession` — point lookup of a
participant key inside one `(tenant, room)` scope. -/
def GetSession (d : Dir) (apiKey room key : String) : Option Session :=
  d.find? (fun t => inScope apiKey room t && t.claims.SessionKey == key)

/-- Modelled from the spec: `pionRoom.StoreSession` — register the
session under its claim triple, replacing any live entry with the same
`(tenant, room, participant key)`. -/
def StoreSession (d : Dir) (s : Session) : Dir :=
  d.filter (fun t =>
    !(inScope s.claims.ApiKeyID s.claims.Room t &&
      t.claims.SessionKey == s.claims.SessionKey)) ++ [s]

/-- Modelled from the spec: `pionRoom.DestroySession` — remove the entry
for `(apiKey, room, key)`; tolerates an already-absent entry. -/
def DestroySession (d : Dir) (apiKey room key : String) : Dir :=
  d.filter (fun t => !(inScope apiKey room t && t.claims.SessionKey == key))

/-- Modelled from the spec: the server→client message envelopes
(`messageMembers`, `messageSDP`, `messageCandidate`, `messagePing`,
`messageExit`), a discriminated union tagged by `method`.  `sdp` and
`candidate` carry `src`, `dst` and an opaque payload. -/
inductive Msg where
  | members (ms : List String)
  | sdp (src dst payload : String)
  | candidate (src dst payload : String)
  | ping
  | exit (sessionKey : String)
  deriving DecidableEq, Repr

/-- One attempted `WriteJSON`: destination session id and the message. -/
abbrev WriteAttempt := Nat × Msg

/-- The write oracle: whether a given attempted write succeeds. -/
abbrev Oracle := Nat → Msg → Bool

/-- Modelled from the spec: `pionSession.WriteJSON` — the serialized
encode-and-send operation.  It records one attempt on the session's
transport and reports success or failure as decided by the oracle. -/
def writeJSON (W : Oracle) (t : Session) (m : Msg) : List WriteAttempt × Bool :=
  ([(t.sid, m)], W t.sid m)

/-- An inbound raw frame, as seen through `json.Unmarshal`:
`malformed` — unmarshalling into `messageBase` fails;
`badArgs m` — the base envelope decodes with method `m` but a second
unmarshal into a method-specific struct would fail;
`ok f` — every unmarshal succeeds, yielding the decoded fields. -/
structure RawFrame where
  method : String
  src : String
  dst : String
  payload : String
  deriving DecidableEq, Repr

/-- See `RawFrame`. -/
inductive RawMsg where
  | malformed
  | badArgs (method : String)
  | ok (f : RawFrame)
  deriving DecidableEq, Repr

/-- The base-envelope method of a raw frame, when the base unmarshal
succeeds. -/
def baseMethod : RawMsg → Option String
  | RawMsg.malformed => none
  | RawMsg.badArgs m => some m
  | RawMsg.ok f => some f.method

/-- `sendMembers` (websocket.go:21-34): enumerate the caller's room,
collect every participant key different from the caller's own, and send
the list to the caller. -/
def membersList (d : Dir) (s : Session) : List String :=
  ((GetRoom d s.claims.ApiKeyID s.claims.Room).filter
    (fun t => t.claims.SessionKey != s.claims.SessionKey)).map
    (fun t => t.claims.SessionKey)

/-- `sendMembers` (websocket.go:21-34). -/
def sendMembers (W : Oracle) (d : Dir) (s : Session) : List WriteAttempt × Bool :=
  writeJSON W s (Msg.members (membersList d s))

/-- `sendSdp` (websocket.go:36-48): re-unmarshal the raw frame as
`messageSDP` (failure aborts), overwrite `Src` with the caller's own
participant key, look the destination key up in the caller's own
`(tenant, room)` scope (absence aborts with an error), and write the
corrected message to the destination session. -/
def sendSdp (W : Oracle) (d : Dir) (s : Session) (raw : RawMsg) :
    List WriteAttempt × Bool :=
  match raw with
  | RawMsg.ok f =>
    match GetSession d s.claims.ApiKeyID s.claims.Room f.dst with
    | some dst => writeJSON W dst (Msg.sdp s.claims.SessionKey f.dst f.payload)
    | none => ([], false)
  | _ => ([], false)

/-- `sendCandidate` (websocket.go:50-62): same shape as `sendSdp`. -/
def sendCandidate (W : Oracle) (d : Dir) (s : Session) (raw : RawMsg) :
    List WriteAttempt × Bool :=
  match raw with
  | RawMsg.ok f =>
    match GetSession d s.claims.ApiKeyID s.claims.Room f.dst with
    | some dst =>
      writeJSON W dst (Msg.candidate s.claims.SessionKey f.dst f.payload)
    | none => ([], false)
  | _ => ([], false)

/-- `sendPing` (websocket.go:64-67). -/
def sendPing (W : Oracle) (s : Session) : List WriteAttempt × Bool :=
  writeJSON W s Msg.ping

/-- One step of a `sync.Map.Range` style iteration: the callback yields
the write attempts it made and whether iteration continues. -/
def mapRange (step : Session → List WriteAttempt × Bool) :
    List Session → List WriteAttempt
  | [] => []
  | t :: ts =>
    let r := step t
    if r.2 then r.1 ++ mapRange step ts else r.1

/-- `announceExit` (websocket.go:69-81): iterate the room and write one
`exit` message, carrying the departing participant key, to every session
enumerated; a write failure is only logged and the callback returns
`true`, so iteration always continues. -/
def announceExit (W : Oracle) (d : Dir) (apiKey room sessionKey : String) :
    List WriteAttempt :=
  mapRange
    (fun t =>
      let r := writeJSON W t (Msg.exit sessionKey)
      (r.1, true))
    (GetRoom d apiKey room)

/-- `handleClientMessage` (websocket.go:89-107): unmarshal the base
envelope (failure is an error) and dispatch on `method`; `pong` is a
no-op success; any other method is an error. -/
def handleClientMessage (W : Oracle) (d : Dir) (s : Session) (raw : RawMsg) :
    List WriteAttempt × Bool :=
  match baseMethod raw with
  | none => ([], false)
  | some m =>
    if m == "members" then sendMembers W d s
    else if m == "sdp" then sendSdp W d s raw
    else if m == "candidate" then sendCandidate W d s raw
    else if m == "pong" then ([], true)
    else ([], false)

/-- One event offered to the `select` loop of `handleWS`: a keepalive
tick, an inbound raw frame forwarded by the read goroutine, or the stop
signal the read goroutine closes on a transport read failure. -/
inductive LoopEvent where
  | tick
  | frame (raw : RawMsg)
  | stop
  deriving DecidableEq, Repr

/-- Why the event loop returned. -/
inductive StopReason where
  | pingFail
  | handlerErr
  | stopSignal
  deriving DecidableEq, Repr

/-- `handleWS` (websocket.go:109-149): consume a schedule of loop events
in order.  A tick sends one ping; a ping write failure returns.  A frame
is dispatched; a handler error returns.  The stop signal returns.  The
result is the sequence of write attempts made and, if the loop returned
within the schedule, the reason. -/
def handleWS (W : Oracle) (d : Dir) (s : Session) :
    List LoopEvent → List WriteAttempt × Option StopReason
  | [] => ([], none)
  | LoopEvent.tick :: rest =>
    let r := sendPing W s
    if r.2 then
      let k := handleWS W d s rest
      (r.1 ++ k.1, k.2)
    else (r.1, some StopReason.pingFail)
  | LoopEvent.frame raw :: rest =>
    let r := handleClientMessage W d s raw
    if r.2 then
      let k := handleWS W d s rest
      (r.1 ++ k.1, k.2)
    else (r.1, some StopReason.handlerErr)
  | LoopEvent.stop :: _ => ([], some StopReason.stopSignal)

/-- `assertClaims` (websocket.go:153-162): all three claim fields must be
non-empty. -/
def assertClaims (c : PionClaim) : Bool :=
  c.ApiKeyID != "" && c.SessionKey != "" && c.Room != ""

/-- An observable action of the connection handler, in program order. -/
inductive Action where
  | register (s : Session)
  | write (sid : Nat) (m : Msg)
  | deregister (apiKey room key : String)
  | closeTransport (sid : Nat)
  deriving DecidableEq, Repr

/-- Lift recorded write attempts into the action trace. -/
def writeActs (ws : List WriteAttempt) : List Action :=
  ws.map (fun p => Action.write p.1 p.2)

/-- The deferred teardown of `HandleRootWSUpgrade` (websocket.go:186-202):
destroy the directory entry, broadcast `exit` to the room as it stands
after the removal, close the transport. -/
def teardown (W : Oracle) (d : Dir) (c : PionClaim) (sid : Nat) :
    List Action × Dir :=
  let d2 := DestroySession d c.ApiKeyID c.Room c.SessionKey
  (Action.deregister c.ApiKeyID c.Room c.SessionKey
     :: writeActs (announceExit W d2 c.ApiKeyID c.Room c.SessionKey)
     ++ [Action.closeTransport sid], d2)

/-- `HandleRootWSUpgrade` (websocket.go:152-211): upgrade (failure: no
further processing), require exactly one `authToken` query value,
validate it into a claim, assert the claim's three fields; on any of
those failures the handler just returns.  Otherwise build the session,
arm the deferred teardown, register the session, send the initial
members snapshot (failure falls through to teardown) and run the event
loop; the teardown then runs exactly once.  `getClaims` abstracts the
external `jwt.GetClaims`; `upgradeOk` abstracts the transport upgrade.
Returns the action trace and the final directory. -/
def HandleRootWSUpgrade (W : Oracle) (getClaims : String → Option PionClaim)
    (d : Dir) (upgradeOk : Bool) (authTokens : List String) (sid : Nat)
    (events : List LoopEvent) : List Action × Dir :=
  if upgradeOk then
    match authTokens with
    | [tok] =>
      match getClaims tok with
      | some c =>
        if assertClaims c then
          let s : Session := ⟨sid, c⟩
          let d1 := StoreSession d s
          let m := sendMembers W d1 s
          let loopWrites := if m.2 then (handleWS W d1 s events).1 else []
          let td := teardown W d1 c sid
          (Action.register s :: writeActs m.1 ++ writeActs loopWrites ++ td.1,
           td.2)
        else ([], d)
      | none => ([], d)
    | _ => ([], d)
  else ([], d)

/-! Concrete fixtures used to instantiate theorems with hypotheses. -/

/-- Fixture: a write oracle under which every write succeeds. -/
def Wok : Oracle := fun _ _ => true

/-- Fixture: claim of participant `A` in `(tenant t1, room r1)`. -/
def claimA : PionClaim := ⟨"t1", "A", "r1"⟩

/-- Fixture: claim of participant `B` in `(tenant t1, room r1)`. -/
def claimB : PionClaim := ⟨"t1", "B", "r1"⟩

/-- Fixture: claim of participant `C` in `(tenant t1, room r1)`. -/
def claimC : PionClaim := ⟨"t1", "C", "r1"⟩

/-- Fixture: claim of participant `X` in `(tenant t1, room rA)`. -/
def claimX : PionClaim := ⟨"t1", "X", "rA"⟩

/-- Fixture session of `claimA`. -/
def sessA : Session := ⟨1, claimA⟩

/-- Fixture session of `claimB`. -/
def sessB : Session := ⟨2, claimB⟩

/-- Fixture session of `claimC`. -/
def sessC : Session := ⟨3, claimC⟩

/-- Fixture session of `claimX`. -/
def sessX : Session := ⟨4, claimX⟩

/-- Fixture directory with `A`, `B`, `C` all in `(t1, r1)`. -/
def dirABC : Dir := [sessA, sessB, sessC]

/-- Fixture directory where the key `X` exists only in room `rA`
while the sender `A` is in room `r1`. -/
def dirAX : Dir := [sessA, sessX]

/-- Fixture directory holding `B` and `C` of `(t1, r1)`, before `A`
connects. -/
def dirBC : Dir := [sessB, sessC]

/-- Fixture: claims validator that accepts every token but yields a claim
whose tenant field is empty. -/
def badClaims : String → Option PionClaim := fun _ => some ⟨"", "k", "r"⟩

/-- Fixture: claims validator mapping the token `tok` to `claimA`. -/
def goodClaims : String → Option PionClaim :=
  fun t => if t == "tok" then some claimA else none

/-! Helper lemmas shared by the claim theorems. -/

/-- A `mapRange` whose callback always continues visits every element. -/
theorem mapRange_singleton_true (f : Session → WriteAttempt) :
    ∀ l : List Session, mapRange (fun t => ([f t], true)) l = l.map f := by
  intro l
  induction l with
  | nil => rfl
  | cons t ts ih => simp [mapRange, ih]

/-- `announceExit` attempts exactly the per-member exit writes, in room
enumeration order, whatever the write oracle decides. -/
theorem announceExit_eq_map (W : Oracle) (d : Dir) (apiKey room key : String) :
    announceExit W d apiKey room key =
      (GetRoom d apiKey room).map (fun t => (t.sid, Msg.exit key)) := by
  simpa [announceExit, writeJSON] using
    mapRange_singleton_true (fun t => (t.sid, Msg.exit key))
      (GetRoom d apiKey room)

/-- Every message `sendSdp` attempts to write is an `sdp` envelope whose
`src` is the sender's own participant key. -/
theorem sendSdp_shape (W : Oracle) (d : Dir) (s : Session) (raw : RawMsg) :
    ∀ p ∈ (sendSdp W d s raw).1,
      ∃ dst payload, p.2 = Msg.sdp s.claims.SessionKey dst payload := by
  intro p hp
  cases raw with
  | malformed => simp [sendSdp] at hp
  | badArgs m => simp [sendSdp] at hp
  | ok f =>
    revert hp
    simp only [sendSdp]
    cases hfind : GetSession d s.claims.ApiKeyID s.claims.Room f.dst with
    | none => simp
    | some t =>
      simp only [writeJSON, List.mem_singleton]
      intro hp
      subst hp
      exact ⟨f.dst, f.payload, rfl⟩

/-- Every message `sendCandidate` attempts to write is a `candidate`
envelope whose `src` is the sender's own participant key. -/
theorem sendCandidate_shape (W : Oracle) (d : Dir) (s : Session)
    (raw : RawMsg) :
    ∀ p ∈ (sendCandidate W d s raw).1,
      ∃ dst payload, p.2 = Msg.candidate s.claims.SessionKey dst payload := by
  intro p hp
  cases raw with
  | malformed => simp [sendCandidate] at hp
  | badArgs m => simp [sendCandidate] at hp
  | ok f =>
    revert hp
    simp only [sendCandidate]
    cases hfind : GetSession d s.claims.ApiKeyID s.claims.Room f.dst with
    | none => simp
    | some t =>
      simp only [writeJSON, List.mem_singleton]
      intro hp
      subst hp
      exact ⟨f.dst, f.payload, rfl⟩

/-- C1: every write attempt performed by `sendSdp` or `sendCandidate` on
behalf of a session carries `src` equal to that session's own participant
key, whatever `src` value the client put in the raw frame: the
destination can never observe a forged `src`. -/
theorem relay_src_overwritten (W : Oracle) (d : Dir) (s : Session)
    (raw : RawMsg) :
    (∀ p ∈ (sendSdp W d s raw).1,
      ∃ dst payload, p.2 = Msg.sdp s.claims.SessionKey dst payload) ∧
    (∀ p ∈ (sendCandidate W d s raw).1,
      ∃ dst payload, p.2 = Msg.candidate s.claims.SessionKey dst payload) :=
  ⟨sendSdp_shape W d s raw, sendCandidate_shape W d s raw⟩

/-- C3: `sendMembers` writes one members list to the caller only; the
list never contains the caller's own participant key, and a key is in
the list exactly when some session of the caller's `(tenant, room)`
scope holds it and it differs from the caller's own key. -/
theorem members_self_exclusion (W : Oracle) (d : Dir) (s : Session) :
    (sendMembers W d s).1 = [(s.sid, Msg.members (membersList d s))] ∧
    s.claims.SessionKey ∉ membersList d s ∧
    ∀ k, k ∈ membersList d s ↔
      k ≠ s.claims.SessionKey ∧
      ∃ t ∈ d, t.claims.ApiKeyID = s.claims.ApiKeyID ∧
        t.claims.Room = s.claims.Room ∧ t.claims.SessionKey = k := by
  refine ⟨rfl, ?_, ?_⟩
  · simp only [membersList, GetRoom, List.mem_map, List.mem_filter,
      List.filter_filter, inScope, Bool.and_eq_true, beq_iff_eq,
      bne_iff_ne, ne_eq]
    aesop
  · intro k
    simp only [membersList, GetRoom, List.mem_map, List.mem_filter,
      List.filter_filter, inScope, Bool.and_eq_true, beq_iff_eq,
      bne_iff_ne, ne_eq]
    aesop

/-- C10: self-relay is allowed: when the sender's own participant key is
registered in its `(tenant, room)` scope (resolving to session `u`, in
particular the sender itself), an `sdp` or `candidate` frame whose `dst`
is that key is looked up successfully and written back to `u` with `src`
set to that same key, not rejected. -/
theorem self_relay_delivered (W : Oracle) (d : Dir) (s u : Session)
    (src0 payload : String)
    (h : GetSession d s.claims.ApiKeyID s.claims.Room s.claims.SessionKey =
      some u) :
    sendSdp W d s (RawMsg.ok ⟨"sdp", src0, s.claims.SessionKey, payload⟩) =
      ([(u.sid, Msg.sdp s.claims.SessionKey s.claims.SessionKey payload)],
        W u.sid (Msg.sdp s.claims.SessionKey s.claims.SessionKey payload)) ∧
    sendCandidate W d s
        (RawMsg.ok ⟨"candidate", src0, s.claims.SessionKey, payload⟩) =
      ([(u.sid,
          Msg.candidate s.claims.SessionKey s.claims.SessionKey payload)],
        W u.sid
          (Msg.candidate s.claims.SessionKey s.claims.SessionKey payload)) := by
  constructor <;> simp [sendSdp, sendCandidate, h, writeJSON]

/-- Witness for C10 at a concrete input: in `dirABC` the key `A` resolves
to `sessA` itself and the relay is delivered back to `sessA`. -/
theorem self_relay_delivered_witness :
    (GetSession dirABC sessA.claims.ApiKeyID sessA.claims.Room
        sessA.claims.SessionKey = some sessA) ∧
    (sendSdp Wok dirABC sessA
        (RawMsg.ok ⟨"sdp", "forged", sessA.claims.SessionKey, "blob"⟩) =
      ([(sessA.sid,
          Msg.sdp sessA.claims.SessionKey sessA.claims.SessionKey "blob")],
        Wok sessA.sid
          (Msg.sdp sessA.claims.SessionKey sessA.claims.SessionKey "blob")) ∧
     sendCandidate Wok dirABC sessA
        (RawMsg.ok ⟨"candidate", "forged", sessA.claims.SessionKey, "blob"⟩) =
      ([(sessA.sid,
          Msg.candidate sessA.claims.SessionKey sessA.claims.SessionKey
            "blob")],
        Wok sessA.sid
          (Msg.candidate sessA.claims.SessionKey sessA.claims.SessionKey
            "blob"))) :=
  ⟨by decide,
    self_relay_delivered Wok dirABC sessA sessA "forged" "blob" (by decide)⟩

/-- C9: the exit broadcast tolerates write failures: swapping the write
oracle for one that fails arbitrarily changes neither the broadcast's
attempts nor the teardown trace, every session enumerated in the room is
still offered the exit message, and the teardown (deregistration, then
the broadcast, then the transport close) proceeds identically. -/
theorem exit_broadcast_failure_tolerant (W Wfail : Oracle) (d : Dir)
    (c : PionClaim) (sid : Nat) :
    announceExit W d c.ApiKeyID c.Room c.SessionKey =
      announceExit Wfail d c.ApiKeyID c.Room c.SessionKey ∧
    (∀ t ∈ GetRoom d c.ApiKeyID c.Room,
      (t.sid, Msg.exit c.SessionKey) ∈
        announceExit Wfail d c.ApiKeyID c.Room c.SessionKey) ∧
    teardown W d c sid = teardown Wfail d c sid := by
  refine ⟨?_, ?_, ?_⟩
  · rw [announceExit_eq_map, announceExit_eq_map]
  · intro t ht
    rw [announceExit_eq_map]
    exact List.mem_map_of_mem _ ht
  · simp only [teardown, announceExit_eq_map]

/-- C8: each keepalive tick performs exactly one ping write to the
session; a failing ping write stops the loop at once with `pingFail`,
discarding the rest of the schedule; and a client that never sends
`pong` — a schedule consisting of ping ticks only, with writes
succeeding — is never disconnected, however many intervals pass. -/
theorem keepalive_ping_policy (W : Oracle) (d : Dir) (s : Session)
    (rest : List LoopEvent) :
    (W s.sid Msg.ping = true →
      handleWS W d s (LoopEvent.tick :: rest) =
        ((s.sid, Msg.ping) :: (handleWS W d s rest).1,
          (handleWS W d s rest).2)) ∧
    (W s.sid Msg.ping = false →
      handleWS W d s (LoopEvent.tick :: rest) =
        ([(s.sid, Msg.ping)], some StopReason.pingFail)) ∧
    (W s.sid Msg.ping = true →
      ∀ n, handleWS W d s (List.replicate n LoopEvent.tick) =
        (List.replicate n (s.sid, Msg.ping), none)) := by
  refine ⟨?_, ?_, ?_⟩
  · intro h
    simp [handleWS, sendPing, writeJSON, h]
  · intro h
    simp [handleWS, sendPing, writeJSON, h]
  · intro h n
    induction n with
    | zero => rfl
    | succ m ih =>
      simp [List.replicate_succ, handleWS, sendPing, writeJSON, h, ih]

/-- C6: a malformed envelope, and any well-formed envelope whose method
is none of `members`, `sdp`, `candidate`, `pong`, makes the dispatcher
fail, and the event loop terminates on that frame with a handler error,
processing none of the remaining schedule — no buffering, skipping or
recovery. -/
theorem unknown_method_terminates (W : Oracle) (d : Dir) (s : Session)
    (f : RawFrame) (rest : List LoopEvent) :
    (handleWS W d s (LoopEvent.frame RawMsg.malformed :: rest) =
      ([], some StopReason.handlerErr)) ∧
    (f.method ∉ (["members", "sdp", "candidate", "pong"] : List String) →
      handleClientMessage W d s (RawMsg.ok f) = ([], false) ∧
      handleWS W d s (LoopEvent.frame (RawMsg.ok f) :: rest) =
        ([], some StopReason.handlerErr)) := by
  constructor
  · simp [handleWS, handleClientMessage, baseMethod]
  · intro hm
    simp only [List.mem_cons, List.not_mem_nil, or_false, not_or] at hm
    obtain ⟨h1, h2, h3, h4⟩ := hm
    have hdisp : handleClientMessage W d s (RawMsg.ok f) = ([], false) := by
      simp [handleClientMessage, baseMethod, h1, h2, h3, h4]
    exact ⟨hdisp, by simp [handleWS, hdisp]⟩

/-- Witness for C6 at a concrete input: the method `bogus` terminates
the loop with a handler error. -/
theorem unknown_method_terminates_witness :
    (handleWS Wok dirABC sessA (LoopEvent.frame RawMsg.malformed ::
        [LoopEvent.tick]) = ([], some StopReason.handlerErr)) ∧
    (("bogus" : String) ∉ (["members", "sdp", "candidate", "pong"] :
        List String) ∧
      (handleClientMessage Wok dirABC sessA
          (RawMsg.ok ⟨"bogus", "", "", ""⟩) = ([], false) ∧
        handleWS Wok dirABC sessA
          (LoopEvent.frame (RawMsg.ok ⟨"bogus", "", "", ""⟩) ::
            [LoopEvent.tick]) = ([], some StopReason.handlerErr))) :=
  ⟨(unknown_method_terminates Wok dirABC sessA ⟨"bogus", "", "", ""⟩
      [LoopEvent.tick]).1,
    by decide,
    (unknown_method_terminates Wok dirABC sessA ⟨"bogus", "", "", ""⟩
      [LoopEvent.tick]).2 (by decide)⟩

/-- A key absent from every session of the caller's scope (even when it
exists in some other scope) makes the point lookup fail. -/
theorem GetSession_eq_none (d : Dir) (A R k : String)
    (h : ∀ t ∈ d, ¬(t.claims.ApiKeyID = A ∧ t.claims.Room = R ∧
      t.claims.SessionKey = k)) :
    GetSession d A R k = none := by
  simp only [GetSession, List.find?_eq_none, inScope, Bool.and_eq_true,
    beq_iff_eq]
  aesop

/-- C4: the relay destination is looked up only inside the sender's own
`(tenant, room)` scope: when no session of that scope holds the key —
even if the key exists in another room or tenant — `sendSdp` and
`sendCandidate` fail without writing to anyone, and the sender's event
loop terminates on that frame with a handler error while no other
connection receives anything. -/
theorem peer_not_found_terminates_sender (W : Oracle) (d : Dir)
    (s : Session) (f : RawFrame) (rest : List LoopEvent)
    (hm : f.method = "sdp" ∨ f.method = "candidate")
    (habs : ∀ t ∈ d, ¬(t.claims.ApiKeyID = s.claims.ApiKeyID ∧
      t.claims.Room = s.claims.Room ∧ t.claims.SessionKey = f.dst)) :
    handleClientMessage W d s (RawMsg.ok f) = ([], false) ∧
    handleWS W d s (LoopEvent.frame (RawMsg.ok f) :: rest) =
      ([], some StopReason.handlerErr) := by
  have hnone := GetSession_eq_none d s.claims.ApiKeyID s.claims.Room f.dst
    habs
  have hdisp : handleClientMessage W d s (RawMsg.ok f) = ([], false) := by
    rcases hm with h | h <;>
      simp [handleClientMessage, baseMethod, h, sendSdp, sendCandidate,
        hnone]
  exact ⟨hdisp, by simp [handleWS, hdisp]⟩

/-- Witness for C4 at a concrete input: the key `X` exists only in room
`rA`, so a relay from `A` (room `r1`) targeting `X` fails and ends the
sender's loop. -/
theorem peer_not_found_terminates_sender_witness :
    ((RawFrame.mk "sdp" "s" "X" "p").method = "sdp" ∨
      (RawFrame.mk "sdp" "s" "X" "p").method = "candidate") ∧
    (∀ t ∈ dirAX, ¬(t.claims.ApiKeyID = sessA.claims.ApiKeyID ∧
      t.claims.Room = sessA.claims.Room ∧
      t.claims.SessionKey = (RawFrame.mk "sdp" "s" "X" "p").dst)) ∧
    (handleClientMessage Wok dirAX sessA
        (RawMsg.ok ⟨"sdp", "s", "X", "p"⟩) = ([], false) ∧
      handleWS Wok dirAX sessA
        (LoopEvent.frame (RawMsg.ok ⟨"sdp", "s", "X", "p"⟩) ::
          [LoopEvent.stop]) = ([], some StopReason.handlerErr)) :=
  ⟨by decide, by decide,
    peer_not_found_terminates_sender Wok dirAX sessA ⟨"sdp", "s", "X", "p"⟩
      [LoopEvent.stop] (by decide) (by decide)⟩

/-- C7: a connection request whose query string carries zero or several
occurrences of the bearer-token parameter is rejected by the handler
before any claim validation: the handler performs no action at all — in
particular the connection is never registered in the directory and never
served an event loop — and the directory is unchanged. -/
theorem auth_token_count_enforced (W : Oracle)
    (g : String → Option PionClaim) (d : Dir) (up : Bool)
    (toks : List String) (sid : Nat) (evs : List LoopEvent)
    (h : toks.length ≠ 1) :
    HandleRootWSUpgrade W g d up toks sid evs = ([], d) := by
  match toks with
  | [] => cases up <;> rfl
  | [t] => simp at h
  | a :: b :: r => cases up <;> rfl

/-- Witness for C7 at a concrete input: two token occurrences are
rejected with an empty trace and an unchanged directory. -/
theorem auth_token_count_enforced_witness :
    ((["a", "b"] : List String).length ≠ 1) ∧
    HandleRootWSUpgrade Wok goodClaims dirABC true ["a", "b"] 9 [] =
      ([], dirABC) :=
  ⟨by decide,
    auth_token_count_enforced Wok goodClaims dirABC true ["a", "b"] 9 []
      (by decide)⟩

/-- C5 at the failing input: with an upgraded transport and a validated
claim whose tenant field is empty, the handler performs no action at
all.  The claim's "never registered" and "no exit broadcast" parts hold
(the trace is empty), but so does its refutation of "transport is closed
immediately": the trace contains no `closeTransport` action either —
the Go handler returns on this path without ever calling
`session.websocket.Close()` (websocket.go:180-183 run before the
deferred cleanup at websocket.go:186 is armed). -/
theorem auth_incomplete_claim_no_close :
    HandleRootWSUpgrade Wok badClaims dirABC true ["tok"] 7 [] =
      ([], dirABC) ∧
    assertClaims ⟨"", "k", "r"⟩ = false ∧
    Action.closeTransport 7 ∉
      (HandleRootWSUpgrade Wok badClaims dirABC true ["tok"] 7 []).1 := by
  refine ⟨rfl, rfl, ?_⟩
  decide

/-- The dispatcher never writes an `exit` message: only the teardown's
broadcast produces those. -/
theorem handleClientMessage_no_exit (W : Oracle) (d : Dir) (s : Session)
    (raw : RawMsg) :
    ∀ p ∈ (handleClientMessage W d s raw).1, ∀ k, p.2 ≠ Msg.exit k := by
  intro p hp k
  have hm : ∀ m, baseMethod raw = some m →
      p ∈ ((if m == "members" then sendMembers W d s
        else if m == "sdp" then sendSdp W d s raw
        else if m == "candidate" then sendCandidate W d s raw
        else if m == "pong" then ([], true)
        else ([], false)) : List WriteAttempt × Bool).1 →
      p.2 ≠ Msg.exit k := by
    intro m _ hmem
    by_cases h1 : m = "members"
    · simp only [h1, beq_self_eq_true, if_pos] at hmem
      simp only [sendMembers, writeJSON, List.mem_singleton] at hmem
      subst hmem
      simp
    · rw [if_neg (by simpa using h1)] at hmem
      by_cases h2 : m = "sdp"
      · simp only [h2, beq_self_eq_true, if_pos] at hmem
        obtain ⟨dst, payload, hmsg⟩ := sendSdp_shape W d s raw p hmem
        simp [hmsg]
      · rw [if_neg (by simpa using h2)] at hmem
        by_cases h3 : m = "candidate"
        · simp only [h3, beq_self_eq_true, if_pos] at hmem
          obtain ⟨dst, payload, hmsg⟩ := sendCandidate_shape W d s raw p hmem
          simp [hmsg]
        · rw [if_neg (by simpa using h3)] at hmem
          by_cases h4 : m = "pong"
          · simp only [h4, beq_self_eq_true, if_pos] at hmem
            simp at hmem
          · rw [if_neg (by simpa using h4)] at hmem
            simp at hmem
  cases raw with
  | malformed => simp [handleClientMessage, baseMethod] at hp
  | badArgs m => exact hm m rfl hp
  | ok f => exact hm f.method rfl hp

/-- The event loop never writes an `exit` message. -/
theorem handleWS_no_exit (W : Oracle) (d : Dir) (s : Session) :
    ∀ evs, ∀ p ∈ (handleWS W d s evs).1, ∀ k, p.2 ≠ Msg.exit k := by
  intro evs
  induction evs with
  | nil => simp [handleWS]
  | cons e rest ih =>
    cases e with
    | tick =>
      intro p hp k
      simp only [handleWS, sendPing, writeJSON] at hp
      by_cases hW : W s.sid Msg.ping = true
      · rw [if_pos hW] at hp
        simp only [List.cons_append, List.nil_append, List.mem_cons] at hp
        rcases hp with hp | hp
        · subst hp; simp
        · exact ih p hp k
      · rw [if_neg hW] at hp
        simp only [List.mem_singleton] at hp
        subst hp; simp
    | frame raw =>
      intro p hp k
      simp only [handleWS] at hp
      by_cases hr : (handleClientMessage W d s raw).2 = true
      · rw [if_pos hr] at hp
        rcases List.mem_append.mp hp with hp | hp
        · exact handleClientMessage_no_exit W d s raw p hp k
        · exact ih p hp k
      · rw [if_neg hr] at hp
        exact handleClientMessage_no_exit W d s raw p hp k
    | stop =>
      intro p hp k
      simp [handleWS] at hp

/-- Destroying the session just stored brings the directory back to the
original one with every entry of the session's coordinates removed. -/
theorem DestroySession_StoreSession (d : Dir) (s : Session) :
    DestroySession (StoreSession d s) s.claims.ApiKeyID s.claims.Room
      s.claims.SessionKey =
    DestroySession d s.claims.ApiKeyID s.claims.Room s.claims.SessionKey := by
  simp [DestroySession, StoreSession, List.filter_append, List.filter_filter,
    inScope, Bool.and_self]

/-- `DestroySession` keeps a directory whose session ids repeat nowhere
free of repetitions. -/
theorem DestroySession_sid_nodup (d : Dir) (A R k : String)
    (h : (d.map Session.sid).Nodup) :
    ((DestroySession d A R k).map Session.sid).Nodup :=
  h.sublist ((List.filter_sublist d).map Session.sid)

/-- No `deregister` action hides among lifted write attempts. -/
theorem deregister_not_mem_writeActs (ws : List WriteAttempt)
    (A R k : String) : Action.deregister A R k ∉ writeActs ws := by
  simp [writeActs]

/-- No `closeTransport` action hides among lifted write attempts. -/
theorem closeTransport_not_mem_writeActs (ws : List WriteAttempt)
    (sid : Nat) : Action.closeTransport sid ∉ writeActs ws := by
  simp [writeActs]

/-- Write attempts that never carry an `exit` message lift to a trace in
which no `exit` write occurs. -/
theorem exit_not_mem_writeActs (ws : List WriteAttempt) (i : Nat)
    (k : String) (h : ∀ p ∈ ws, ∀ k2, p.2 ≠ Msg.exit k2) :
    Action.write i (Msg.exit k) ∉ writeActs ws := by
  simp only [writeActs, List.mem_map]
  rintro ⟨p, hp, hw⟩
  exact h p hp k ((Action.write.injEq _ _ _ _).mp hw).2

/-- Counting one session's exit write among the broadcast's lifted
writes is counting its session id among the room's ids. -/
theorem count_exit_writeActs (key : String) (i : Nat) (l : List Session) :
    (writeActs (l.map (fun t => (t.sid, Msg.exit key)))).count
      (Action.write i (Msg.exit key)) = (l.map Session.sid).count i := by
  induction l with
  | nil => rfl
  | cons t ts ih =>
    simp only [List.map_cons, writeActs] at ih ⊢
    rw [List.count_cons, List.count_cons, ih]
    by_cases h : t.sid = i <;> simp [beq_iff_eq, h]

/-- Restricting to one room keeps distinct session ids distinct. -/
theorem GetRoom_sid_nodup (d : Dir) (A R : String)
    (h : (d.map Session.sid).Nodup) :
    ((GetRoom d A R).map Session.sid).Nodup :=
  h.sublist ((List.filter_sublist d).map Session.sid)

/-- A conditional prefix of exit-free writes stays exit-free. -/
theorem no_exit_of_ite (b : Bool) (l : List WriteAttempt)
    (h : ∀ p ∈ l, ∀ k, p.2 ≠ Msg.exit k) :
    ∀ p ∈ (if b then l else []), ∀ k, p.2 ≠ Msg.exit k := by
  cases b
  · simp
  · simpa using h

/-- The initial members snapshot contains no exit message. -/
theorem sendMembers_no_exit (W : Oracle) (d : Dir) (s : Session) :
    ∀ p ∈ (sendMembers W d s).1, ∀ k, p.2 ≠ Msg.exit k := by
  simp [sendMembers, writeJSON]

/-- `teardown` unfolded: deregister, lift the exit broadcast over the
directory without the departing entry, close. -/
theorem teardown_eq (W : Oracle) (d : Dir) (c : PionClaim) (sid : Nat) :
    teardown W d c sid =
      (Action.deregister c.ApiKeyID c.Room c.SessionKey ::
        (writeActs (announceExit W
            (DestroySession d c.ApiKeyID c.Room c.SessionKey)
            c.ApiKeyID c.Room c.SessionKey) ++
          [Action.closeTransport sid]),
       DestroySession d c.ApiKeyID c.Room c.SessionKey) := rfl

/-- The handler's full trace and final directory once authentication
passed. -/
theorem HandleRootWSUpgrade_eq (W : Oracle) (g : String → Option PionClaim)
    (d : Dir) (tok : String) (c : PionClaim) (sid : Nat)
    (evs : List LoopEvent) (hg : g tok = some c)
    (hac : assertClaims c = true) :
    HandleRootWSUpgrade W g d true [tok] sid evs =
      (Action.register ⟨sid, c⟩ ::
        (writeActs (sendMembers W (StoreSession d ⟨sid, c⟩) ⟨sid, c⟩).1 ++
          (writeActs (if (sendMembers W (StoreSession d ⟨sid, c⟩)
                ⟨sid, c⟩).2
              then (handleWS W (StoreSession d ⟨sid, c⟩) ⟨sid, c⟩ evs).1
              else []) ++
            (teardown W (StoreSession d ⟨sid, c⟩) c sid).1)),
       (teardown W (StoreSession d ⟨sid, c⟩) c sid).2) := by
  simp [HandleRootWSUpgrade, hg, hac]

/-- C2: once a connection registers (well-formed token, complete claim),
then whatever the event schedule and whichever trigger ends the loop —
stop signal after a read failure, ping write failure, handler error, or
even a failing initial members write — its trace holds exactly one
deregistration of the session's coordinates, exactly one transport
close, and exactly one exit write carrying the departing participant key
to each session remaining in the departing session's `(tenant, room)`;
and these occur consecutively at the very end, in the order deregister,
exit broadcast, close. -/
theorem teardown_exactly_once (W : Oracle) (g : String → Option PionClaim)
    (d : Dir) (tok : String) (c : PionClaim) (sid : Nat)
    (evs : List LoopEvent) (hg : g tok = some c)
    (hac : assertClaims c = true) (hnd : (d.map Session.sid).Nodup) :
    ((HandleRootWSUpgrade W g d true [tok] sid evs).1.count
        (Action.deregister c.ApiKeyID c.Room c.SessionKey) = 1) ∧
    ((HandleRootWSUpgrade W g d true [tok] sid evs).1.count
        (Action.closeTransport sid) = 1) ∧
    (∀ t ∈ GetRoom (HandleRootWSUpgrade W g d true [tok] sid evs).2
        c.ApiKeyID c.Room,
      (HandleRootWSUpgrade W g d true [tok] sid evs).1.count
        (Action.write t.sid (Msg.exit c.SessionKey)) = 1) ∧
    (∃ pre, (HandleRootWSUpgrade W g d true [tok] sid evs).1 =
      pre ++ Action.deregister c.ApiKeyID c.Room c.SessionKey ::
        (writeActs (announceExit W
            (HandleRootWSUpgrade W g d true [tok] sid evs).2
            c.ApiKeyID c.Room c.SessionKey) ++
          [Action.closeTransport sid])) := by
  have hd2 : DestroySession (StoreSession d ⟨sid, c⟩) c.ApiKeyID c.Room
      c.SessionKey = DestroySession d c.ApiKeyID c.Room c.SessionKey :=
    DestroySession_StoreSession d ⟨sid, c⟩
  rw [HandleRootWSUpgrade_eq W g d tok c sid evs hg hac, teardown_eq, hd2]
  set d1 : Dir := StoreSession d ⟨sid, c⟩ with hd1
  set d2 : Dir := DestroySession d c.ApiKeyID c.Room c.SessionKey with hd2e
  set mw : List WriteAttempt := (sendMembers W d1 ⟨sid, c⟩).1 with hmw
  set lw : List WriteAttempt :=
    (if (sendMembers W d1 ⟨sid, c⟩).2
      then (handleWS W d1 ⟨sid, c⟩ evs).1 else []) with hlw
  set ex : List WriteAttempt :=
    announceExit W d2 c.ApiKeyID c.Room c.SessionKey with hex
  have hdereg0 : ∀ ws : List WriteAttempt,
      (writeActs ws).count
        (Action.deregister c.ApiKeyID c.Room c.SessionKey) = 0 :=
    fun ws => List.count_eq_zero.mpr (deregister_not_mem_writeActs ws _ _ _)
  have hclose0 : ∀ ws : List WriteAttempt,
      (writeActs ws).count (Action.closeTransport sid) = 0 :=
    fun ws => List.count_eq_zero.mpr (closeTransport_not_mem_writeActs ws _)
  refine ⟨?_, ?_, ?_, ?_⟩
  · simp [List.count_cons, List.count_append, List.count_singleton,
      hdereg0, beq_iff_eq]
  · simp [List.count_cons, List.count_append, List.count_singleton,
      hclose0, beq_iff_eq]
  · intro t ht
    have hmw0 : (writeActs mw).count
        (Action.write t.sid (Msg.exit c.SessionKey)) = 0 :=
      List.count_eq_zero.mpr (exit_not_mem_writeActs mw t.sid c.SessionKey
        (sendMembers_no_exit W d1 ⟨sid, c⟩))
    have hlw0 : (writeActs lw).count
        (Action.write t.sid (Msg.exit c.SessionKey)) = 0 :=
      List.count_eq_zero.mpr (exit_not_mem_writeActs lw t.sid c.SessionKey
        (no_exit_of_ite _ _ (handleWS_no_exit W d1 ⟨sid, c⟩ evs)))
    have hex1 : (writeActs ex).count
        (Action.write t.sid (Msg.exit c.SessionKey)) = 1 := by
      rw [hex, announceExit_eq_map, count_exit_writeActs]
      exact List.count_eq_one_of_mem
        (GetRoom_sid_nodup d2 c.ApiKeyID c.Room
          (DestroySession_sid_nodup d c.ApiKeyID c.Room c.SessionKey hnd))
        (List.mem_map_of_mem Session.sid ht)
    simp [List.count_cons, List.count_append, List.count_singleton,
      hmw0, hlw0, hex1, beq_iff_eq]
  · refine ⟨Action.register ⟨sid, c⟩ :: (writeActs mw ++ writeActs lw), ?_⟩
    simp [List.append_assoc]

/-- Witness for C2 at a concrete input: `A` joins the room of `B` and
`C`, the read task signals a stop, and the trace shows exactly one
deregistration, one exit write to each of `B` and `C`, and one close,
in that order at the end. -/
theorem teardown_exactly_once_witness :
    (goodClaims "tok" = some claimA) ∧ (assertClaims claimA = true) ∧
    ((dirBC.map Session.sid).Nodup) ∧
    (((HandleRootWSUpgrade Wok goodClaims dirBC true ["tok"] 1
          [LoopEvent.stop]).1.count
        (Action.deregister claimA.ApiKeyID claimA.Room claimA.SessionKey) =
          1) ∧
      ((HandleRootWSUpgrade Wok goodClaims dirBC true ["tok"] 1
          [LoopEvent.stop]).1.count (Action.closeTransport 1) = 1) ∧
      (∀ t ∈ GetRoom (HandleRootWSUpgrade Wok goodClaims dirBC true ["tok"]
          1 [LoopEvent.stop]).2 claimA.ApiKeyID claimA.Room,
        (HandleRootWSUpgrade Wok goodClaims dirBC true ["tok"] 1
            [LoopEvent.stop]).1.count
          (Action.write t.sid (Msg.exit claimA.SessionKey)) = 1) ∧
      (∃ pre, (HandleRootWSUpgrade Wok goodClaims dirBC true ["tok"] 1
          [LoopEvent.stop]).1 =
        pre ++ Action.deregister claimA.ApiKeyID claimA.Room
            claimA.SessionKey ::
          (writeActs (announceExit Wok
              (HandleRootWSUpgrade Wok goodClaims dirBC true ["tok"] 1
                [LoopEvent.stop]).2
              claimA.ApiKeyID claimA.Room claimA.SessionKey) ++
            [Action.closeTransport 1]))) :=
  ⟨by decide, by decide, by decide,
    teardown_exactly_once Wok goodClaims dirBC "tok" claimA 1
      [LoopEvent.stop] (by decide) (by decide) (by decide)⟩

end Signaler
